import Mathlib

set_option autoImplicit false

/-!
Shallow embedding of `libs/pbd/event_loop.cc` (class `PBD::EventLoop`).

Pointers are modelled as natural numbers; a null pointer is `Option.none`.
The heap of `BaseRequestObject`s is a total function from addresses to
objects.  Stateful routines are translated to explicit state passing; the
RAII lock objects of the C++ code are translated to an event trace
(`Event`) or to the kind of lock acquired (`LockKind`), so that ordering
and locking claims can be stated.
-/

namespace EventLoopModel

/-- One `BaseRequestObject`: the two fields touched by
`EventLoop::invalidate_request` (`valid` and the `invalidation`
back-pointer to an `InvalidationRecord`; the C++ null write
`(*i)->invalidation = 0` is modelled by `none`). -/
structure BaseRequestObject where
  valid : Bool
  invalidation : Option Nat
deriving DecidableEq, Repr

/-- An `InvalidationRecord`: the owning event loop (`ir->event_loop`,
null modelled as `none`) and the list of pending requests
(`ir->requests`, a `std::list<BaseRequestObject*>` of heap addresses). -/
structure InvalidationRecord where
  event_loop : Option Nat
  requests : List Nat
deriving DecidableEq, Repr

/-- Observable events of `invalidate_request`: acquiring and releasing the
event loop's slot-invalidation mutex, flipping one request, and
destroying the record (`delete ir`). -/
inductive Event where
  | mutexAcquire : Nat → Event
  | setInvalid : Nat → Event
  | deleteRecord : Event
  | mutexRelease : Nat → Event
deriving DecidableEq, Repr

/-- The heap of request objects, addressed by `Nat`. -/
abbrev Heap := Nat → BaseRequestObject

/-- One iteration of the loop body of `invalidate_request`:
`(*i)->valid = false; (*i)->invalidation = 0;` at address `p`. -/
def invalidateOne (heap : Heap) (p : Nat) : Heap :=
  fun q => if q = p then ⟨false, none⟩ else heap q

/-- The `for` loop of `invalidate_request` over `ir->requests`. -/
def invalidateLoop (heap : Heap) : List Nat → Heap
  | [] => heap
  | p :: rest => invalidateLoop (invalidateOne heap p) rest

/-- `EventLoop::invalidate_request`.  Returns the new heap, the event
trace, and whether the record was freed.  The trace order is faithful to
the C++ block structure: the RAII lock `lm` is constructed on entry to
the `if` body and destructed when that body's scope ends, which is after
the `delete ir;` statement, so `deleteRecord` precedes `mutexRelease`.
When `ir->event_loop` is null the function only returns `0`: no request
is touched and no `delete` is executed. -/
def invalidate_request (heap : Heap) (ir : InvalidationRecord) :
    Heap × List Event × Bool :=
  match ir.event_loop with
  | some l =>
      (invalidateLoop heap ir.requests,
       Event.mutexAcquire l ::
         (ir.requests.map Event.setInvalid ++
           [Event.deleteRecord, Event.mutexRelease l]),
       true)
  | none => (heap, [], false)

/-- A `RequestBufferSupplier`: the target thread's name and the factory
function pointer (`none` models a null `factory`).  A factory takes the
requested buffer size and yields the address of the allocated buffer. -/
structure RequestBufferSupplier where
  name : String
  factory : Option (Nat → Nat)

/-- A `ThreadBufferMapping`: `pthread_self()` of the emitter (a thread
id, modelled as `Nat`), the target thread's name, and the address of the
allocated request buffer. -/
structure ThreadBufferMapping where
  emitting_thread : Nat
  target_thread_name : String
  request_buffer : Nat
deriving DecidableEq, Repr

/-- `thread_buffer_requests[key] = mapping` on the
`std::map<std::string, ThreadBufferMapping>`: replace in place when the
key is present, append otherwise. -/
def mapStore (key : String) (v : ThreadBufferMapping) :
    List (String × ThreadBufferMapping) → List (String × ThreadBufferMapping)
  | [] => [(key, v)]
  | (k, w) :: rest =>
      if k = key then (key, v) :: rest else (k, w) :: mapStore key v rest

/-- Key lookup in the modelled `std::map`. -/
def mapFind (key : String) :
    List (String × ThreadBufferMapping) → Option ThreadBufferMapping
  | [] => none
  | (k, w) :: rest => if k = key then some w else mapFind key rest

/-- Which kind of lock a routine takes on
`EventLoop::thread_buffer_requests_lock` (a `Glib::Threads::RWLock`). -/
inductive LockKind where
  | reader : LockKind
  | writer : LockKind
deriving DecidableEq, Repr

/-- The static state of `EventLoop`: the shared mapping table
`thread_buffer_requests` and the supplier list
`request_buffer_suppliers`. -/
structure ELState where
  thread_buffer_requests : List (String × ThreadBufferMapping)
  request_buffer_suppliers : List RequestBufferSupplier

/-- `EventLoop::register_request_buffer_factory`: build a supplier from
the two arguments and `push_back` it, under a `WriterLock`. -/
def register_request_buffer_factory (st : ELState)
    (target_thread_name : String) (factory : Option (Nat → Nat)) :
    ELState × LockKind :=
  (⟨st.thread_buffer_requests,
    st.request_buffer_suppliers ++ [⟨target_thread_name, factory⟩]⟩,
   LockKind.writer)

/-- The `for` loop of `EventLoop::pre_register` over
`request_buffer_suppliers`: skip a supplier with a null factory, skip
the supplier named like the emitter, and otherwise store a fresh mapping
under the key `emitting_thread_name + '/' + trs->name`. -/
def preRegisterLoop (self : Nat) (emitting_thread_name : String)
    (num_requests : Nat) :
    List RequestBufferSupplier → List (String × ThreadBufferMapping) →
      List (String × ThreadBufferMapping)
  | [], tbl => tbl
  | trs :: rest, tbl =>
      match trs.factory with
      | none => preRegisterLoop self emitting_thread_name num_requests rest tbl
      | some f =>
          if emitting_thread_name = trs.name then
            preRegisterLoop self emitting_thread_name num_requests rest tbl
          else
            preRegisterLoop self emitting_thread_name num_requests rest
              (mapStore (emitting_thread_name ++ "/" ++ trs.name)
                ⟨self, trs.name, f num_requests⟩ tbl)

/-- `EventLoop::pre_register`.  `self` models `pthread_self()`.  The
second component records that the body holds a `ReaderLock` (the source
declares `Glib::Threads::RWLock::ReaderLock lm
(thread_buffer_requests_lock)`). -/
def pre_register (self : Nat) (st : ELState)
    (emitting_thread_name : String) (num_requests : Nat) :
    ELState × LockKind :=
  (⟨preRegisterLoop self emitting_thread_name num_requests
      st.request_buffer_suppliers st.thread_buffer_requests,
    st.request_buffer_suppliers⟩,
   LockKind.reader)

/-- `EventLoop::get_request_buffers_for_target_thread`: scan the table
and `push_back` every mapping whose `target_thread_name` matches, under
a `WriterLock`; return the vector, the (unchanged) state on exit, and
the lock kind. -/
def get_request_buffers_for_target_thread (st : ELState)
    (target_thread : String) :
    List ThreadBufferMapping × ELState × LockKind :=
  ((st.thread_buffer_requests.filter
      (fun x => x.2.target_thread_name == target_thread)).map Prod.snd,
   st, LockKind.writer)

/-- The per-thread slot behind `EventLoop::thread_event_loop`
(a `Glib::Threads::Private<EventLoop>`): the currently bound pointer and
the set of pointers that have been deallocated on this thread. -/
structure ThreadSlot where
  current : Option Nat
  freed : List Nat
deriving DecidableEq, Repr

/-- The destroy-notify handler passed to `thread_event_loop`:
`do_not_delete_the_loop_pointer` does nothing, so no pointer is ever
added to the freed set. -/
def do_not_delete_the_loop_pointer (s : ThreadSlot) (_p : Nat) : ThreadSlot :=
  s

/-- A thread that never called `set_event_loop_for_thread`: the
`Glib::Threads::Private` slot holds null and nothing was freed. -/
def initialSlot : ThreadSlot := ⟨none, []⟩

/-- `EventLoop::set_event_loop_for_thread`: `thread_event_loop.set
(loop)`, which replaces the binding and frees nothing. -/
def set_event_loop_for_thread (s : ThreadSlot) (loop : Nat) : ThreadSlot :=
  ⟨some loop, s.freed⟩

/-- `EventLoop::get_event_loop_for_thread`: `thread_event_loop.get ()`. -/
def get_event_loop_for_thread (s : ThreadSlot) : Option Nat :=
  s.current

/-! ### Lemmas about `invalidate_request` -/

/-- A request address not in the list is untouched by the loop. -/
theorem invalidateLoop_not_mem (heap : Heap) (reqs : List Nat) (p : Nat)
    (hp : p ∉ reqs) : invalidateLoop heap reqs p = heap p := by
  induction reqs generalizing heap with
  | nil => rfl
  | cons q rest ih =>
      simp only [List.mem_cons, not_or] at hp
      simp only [invalidateLoop]
      rw [ih _ hp.2]
      simp [invalidateOne, hp.1]

/-- Every request address in the list ends up invalidated and detached. -/
theorem invalidateLoop_mem (heap : Heap) (reqs : List Nat) (p : Nat)
    (hp : p ∈ reqs) : invalidateLoop heap reqs p = ⟨false, none⟩ := by
  induction reqs generalizing heap with
  | nil => cases hp
  | cons q rest ih =>
      by_cases hr : p ∈ rest
      · exact ih (invalidateOne heap q) hr
      · have hpq : p = q := by
          rcases List.mem_cons.mp hp with h | h
          · exact h
          · exact absurd h hr
        simp only [invalidateLoop]
        rw [invalidateLoop_not_mem _ _ _ hr]
        simp [invalidateOne, hpq]

/-- A fixed concrete heap used by the concrete witnesses below. -/
def heap0 : Heap := fun _ => ⟨true, some 3⟩

/-- Claim C1: when the record's owning event loop is set,
`invalidate_request` sets `valid = false` and clears the `invalidation`
back-reference on exactly the requests in the record's pending list,
leaves every other request object unchanged, and executes `delete ir`
exactly once; the list may have any length, including zero. -/
theorem invalidate_request_live_loop (heap : Heap) (ir : InvalidationRecord)
    (l : Nat) (h : ir.event_loop = some l) :
    (∀ p ∈ ir.requests,
        ((invalidate_request heap ir).1 p).valid = false ∧
        ((invalidate_request heap ir).1 p).invalidation = none) ∧
    (∀ p, p ∉ ir.requests → (invalidate_request heap ir).1 p = heap p) ∧
    (invalidate_request heap ir).2.1.count Event.deleteRecord = 1 := by
  simp only [invalidate_request, h]
  refine ⟨?_, ?_, ?_⟩
  · intro p hp
    rw [invalidateLoop_mem heap ir.requests p hp]
    exact ⟨rfl, rfl⟩
  · intro p hp
    exact invalidateLoop_not_mem heap ir.requests p hp
  · simp [List.count_cons, List.count_append, List.count_eq_zero,
      List.mem_map]

/-- Claim C1 witness: a record owned by event loop `2` with two pending
requests at addresses `5` and `9`. -/
theorem invalidate_request_live_loop_witness :
    (∀ p ∈ ([5, 9] : List Nat),
        ((invalidate_request heap0 ⟨some 2, [5, 9]⟩).1 p).valid = false ∧
        ((invalidate_request heap0 ⟨some 2, [5, 9]⟩).1 p).invalidation
          = none) ∧
    (∀ p, p ∉ ([5, 9] : List Nat) →
        (invalidate_request heap0 ⟨some 2, [5, 9]⟩).1 p = heap0 p) ∧
    (invalidate_request heap0 ⟨some 2, [5, 9]⟩).2.1.count Event.deleteRecord
      = 1 :=
  invalidate_request_live_loop heap0 ⟨some 2, [5, 9]⟩ 2 rfl

/-- Claim C2 counterexample: for the record `⟨none, [7]⟩` (no owning
event loop, one pending request) the routine does not free the record —
`delete ir` sits inside the `if (ir->event_loop)` body, so a record with
a null event loop is leaked, contradicting the claim that the record's
memory is released before the routine returns. -/
theorem invalidate_request_null_loop_cex :
    ¬ ((invalidate_request heap0 ⟨none, [7]⟩).2.2 = true) := by
  simp [invalidate_request]

/-- Claim C2 (amended): when the record's owning event loop is absent,
`invalidate_request` mutates no request object, emits no event, and does
NOT free the record (the record is leaked). -/
theorem invalidate_request_null_loop (heap : Heap) (ir : InvalidationRecord)
    (h : ir.event_loop = none) :
    invalidate_request heap ir = (heap, [], false) := by
  simp [invalidate_request, h]

/-- Claim C2 witness: the amended statement at the record `⟨none, [7]⟩`. -/
theorem invalidate_request_null_loop_witness :
    invalidate_request heap0 ⟨none, [7]⟩ = (heap0, [], false) :=
  invalidate_request_null_loop heap0 ⟨none, [7]⟩ rfl

/-- Claim C5 counterexample: for the record `⟨some 0, [5]⟩` the event
trace is `[mutexAcquire 0, setInvalid 5, deleteRecord, mutexRelease 0]`:
the mutex release does not precede the destruction of the record, so the
`delete` does not happen outside the mutex-held region. -/
theorem invalidate_request_unlock_order_cex :
    ¬ ((invalidate_request heap0 ⟨some 0, [5]⟩).2.1.indexOf
          (Event.mutexRelease 0)
        < (invalidate_request heap0 ⟨some 0, [5]⟩).2.1.indexOf
            Event.deleteRecord) := by
  decide

/-- Claim C5 (amended): when the record has a live owning event loop,
the record is destroyed while the slot-invalidation mutex is still held:
the unique `deleteRecord` event immediately precedes the unique
`mutexRelease` event at the very end of the trace (the RAII lock is
destructed when the `if` body's scope ends, after `delete ir`). -/
theorem invalidate_request_delete_before_unlock (heap : Heap)
    (ir : InvalidationRecord) (l : Nat) (h : ir.event_loop = some l) :
    (invalidate_request heap ir).2.1.count Event.deleteRecord = 1 ∧
    (invalidate_request heap ir).2.1.count (Event.mutexRelease l) = 1 ∧
    [Event.deleteRecord, Event.mutexRelease l]
      <:+ (invalidate_request heap ir).2.1 := by
  simp only [invalidate_request, h]
  refine ⟨?_, ?_, ?_⟩
  · simp [List.count_cons, List.count_append, List.count_eq_zero,
      List.mem_map]
  · simp [List.count_cons, List.count_append, List.count_eq_zero,
      List.mem_map]
  · exact ⟨Event.mutexAcquire l :: ir.requests.map Event.setInvalid, by simp⟩

/-- Claim C5 witness: the amended statement at the record
`⟨some 0, [5]⟩`. -/
theorem invalidate_request_delete_before_unlock_witness :
    (invalidate_request heap0 ⟨some 0, [5]⟩).2.1.count Event.deleteRecord
        = 1 ∧
    (invalidate_request heap0 ⟨some 0, [5]⟩).2.1.count (Event.mutexRelease 0)
        = 1 ∧
    [Event.deleteRecord, Event.mutexRelease 0]
      <:+ (invalidate_request heap0 ⟨some 0, [5]⟩).2.1 :=
  invalidate_request_delete_before_unlock heap0 ⟨some 0, [5]⟩ 0 rfl

/-! ### The thread-local identity registry -/

/-- Claim C7: `get_event_loop_for_thread` on a fresh thread returns no
identity; after `set_event_loop_for_thread x` it returns `x`; after a
subsequent `set_event_loop_for_thread y` it returns `y` and never `x`;
and neither replacement nor the slot's destroy-notify handler
(`do_not_delete_the_loop_pointer`) deallocates the previous binding. -/
theorem thread_event_loop_registry (s : ThreadSlot) (x y : Nat) (h : x ≠ y) :
    get_event_loop_for_thread initialSlot = none ∧
    get_event_loop_for_thread (set_event_loop_for_thread s x) = some x ∧
    get_event_loop_for_thread
        (set_event_loop_for_thread (set_event_loop_for_thread s x) y)
      = some y ∧
    get_event_loop_for_thread
        (set_event_loop_for_thread (set_event_loop_for_thread s x) y)
      ≠ some x ∧
    (set_event_loop_for_thread s x).freed = s.freed ∧
    (set_event_loop_for_thread (set_event_loop_for_thread s x) y).freed
      = s.freed ∧
    do_not_delete_the_loop_pointer s x = s := by
  refine ⟨rfl, rfl, rfl, ?_, rfl, rfl, rfl⟩
  intro hc
  exact h (Option.some.inj hc).symm

/-- Claim C7 witness: the registry statement at `x = 1`, `y = 2` on the
fresh slot. -/
theorem thread_event_loop_registry_witness :
    get_event_loop_for_thread initialSlot = none ∧
    get_event_loop_for_thread (set_event_loop_for_thread initialSlot 1)
      = some 1 ∧
    get_event_loop_for_thread
        (set_event_loop_for_thread
          (set_event_loop_for_thread initialSlot 1) 2)
      = some 2 ∧
    get_event_loop_for_thread
        (set_event_loop_for_thread
          (set_event_loop_for_thread initialSlot 1) 2)
      ≠ some 1 ∧
    (set_event_loop_for_thread initialSlot 1).freed = initialSlot.freed ∧
    (set_event_loop_for_thread
        (set_event_loop_for_thread initialSlot 1) 2).freed
      = initialSlot.freed ∧
    do_not_delete_the_loop_pointer initialSlot 1 = initialSlot :=
  thread_event_loop_registry initialSlot 1 2 (by decide)

/-! ### The supplier list and the shared mapping table -/

/-- Claim C9: `register_request_buffer_factory` performs no validation
and never fails: for every state, every name (empty or duplicate
included) and every factory (null included) it appends exactly one new
supplier at the end of the list, keeping all existing suppliers in
place, leaves the mapping table untouched, and does so under the writer
lock. -/
theorem register_request_buffer_factory_appends (st : ELState) (nm : String)
    (fac : Option (Nat → Nat)) :
    (register_request_buffer_factory st nm fac).1.request_buffer_suppliers
        = st.request_buffer_suppliers ++ [⟨nm, fac⟩] ∧
    (register_request_buffer_factory st nm fac).1.request_buffer_suppliers.take
        st.request_buffer_suppliers.length = st.request_buffer_suppliers ∧
    (register_request_buffer_factory st nm
        fac).1.request_buffer_suppliers.length
      = st.request_buffer_suppliers.length + 1 ∧
    (register_request_buffer_factory st nm
        fac).1.request_buffer_suppliers.getLast?
      = some ⟨nm, fac⟩ ∧
    (register_request_buffer_factory st nm fac).1.thread_buffer_requests
      = st.thread_buffer_requests ∧
    (register_request_buffer_factory st nm fac).2 = LockKind.writer := by
  refine ⟨rfl, ?_, ?_, ?_, rfl, rfl⟩
  · exact List.take_left st.request_buffer_suppliers
      [(⟨nm, fac⟩ : RequestBufferSupplier)]
  · simp [register_request_buffer_factory]
  · simp [register_request_buffer_factory]

/-- Claim C10: `pre_register` never modifies the supplier list: the
registered suppliers (names, factories, order) after the call are the
very list from before the call; only `thread_buffer_requests` is
rewritten. -/
theorem pre_register_preserves_suppliers (self : Nat) (st : ELState)
    (em : String) (n : Nat) :
    (pre_register self st em n).1.request_buffer_suppliers
      = st.request_buffer_suppliers :=
  rfl

/-- Claim C6: `pre_register` acquires only the reader (shared) lock on
`thread_buffer_requests_lock` while it writes the shared mapping table —
not the writer lock the specification requires.  This records the code
bug: the store `thread_buffer_requests[key] = mapping` happens under a
`ReaderLock`. -/
theorem pre_register_takes_reader_lock (self : Nat) (st : ELState)
    (em : String) (n : Nat) :
    (pre_register self st em n).2 = LockKind.reader ∧
    (pre_register self st em n).2 ≠ LockKind.writer := by
  exact ⟨rfl, by simp [pre_register]⟩

/-- The three suppliers of the C3 scenario: role `ui` with a factory,
role `workerA` with a factory, role `audio` with a null factory. -/
def fUI : Nat → Nat := fun n => n + 100

/-- Factory registered for role `workerA` in the C3 scenario. -/
def fWorkerA : Nat → Nat := fun n => n + 200

/-- Supplier list of the C3 scenario. -/
def suppliersC3 : List RequestBufferSupplier :=
  [⟨"ui", some fUI⟩, ⟨"workerA", some fWorkerA⟩, ⟨"audio", none⟩]

/-- Starting state of the C3 scenario: empty table, three suppliers. -/
def stC3 : ELState := ⟨[], suppliersC3⟩

/-- Claim C3: `pre_register "workerA" 64` against suppliers
`{ui (factory), workerA (factory), audio (no factory)}` stores exactly
one mapping, under the composite key `"workerA/ui"`, and none under
`"workerA/workerA"` or `"workerA/audio"`; in general the loop skips any
supplier with a null factory and the supplier whose name equals the
emitter's own name. -/
theorem pre_register_example (self self2 : Nat) (em : String) (n : Nat)
    (trs : RequestBufferSupplier) (rest : List RequestBufferSupplier)
    (tbl : List (String × ThreadBufferMapping))
    (h : trs.factory = none ∨ em = trs.name) :
    (pre_register self stC3 "workerA" 64).1.thread_buffer_requests
        = [("workerA/ui", ⟨self, "ui", 164⟩)] ∧
    mapFind "workerA/workerA"
        (pre_register self stC3 "workerA" 64).1.thread_buffer_requests
      = none ∧
    mapFind "workerA/audio"
        (pre_register self stC3 "workerA" 64).1.thread_buffer_requests
      = none ∧
    preRegisterLoop self2 em n (trs :: rest) tbl
      = preRegisterLoop self2 em n rest tbl := by
  have htbl : (pre_register self stC3 "workerA" 64).1.thread_buffer_requests
      = [("workerA/ui", ⟨self, "ui", 164⟩)] := by
    simp [pre_register, stC3, suppliersC3, preRegisterLoop, mapStore, fUI]
  refine ⟨htbl, ?_, ?_, ?_⟩
  · rw [htbl]; simp [mapFind]
  · rw [htbl]; simp [mapFind]
  · obtain ⟨nm, fac⟩ := trs
    rcases h with h | h
    · change fac = none at h
      subst h
      rfl
    · change em = nm at h
      cases fac with
      | none => rfl
      | some f => simp [preRegisterLoop, h]

/-- Claim C3 witness: the statement at emitter thread id `0` and, for
the general skip clauses, a supplier `⟨"a", none⟩` with a null
factory. -/
theorem pre_register_example_witness :
    (pre_register 0 stC3 "workerA" 64).1.thread_buffer_requests
        = [("workerA/ui", ⟨0, "ui", 164⟩)] ∧
    mapFind "workerA/workerA"
        (pre_register 0 stC3 "workerA" 64).1.thread_buffer_requests
      = none ∧
    mapFind "workerA/audio"
        (pre_register 0 stC3 "workerA" 64).1.thread_buffer_requests
      = none ∧
    preRegisterLoop 0 "x" 1 (⟨"a", none⟩ :: []) []
      = preRegisterLoop 0 "x" 1 [] [] :=
  pre_register_example 0 0 "x" 1 ⟨"a", none⟩ [] [] (Or.inl rfl)

/-- Claim C8: `get_request_buffers_for_target_thread` returns exactly
the stored mappings whose `target_thread_name` equals the requested
role — a mapping with the right target is in the result iff it is a
value of the table, each such table entry is counted exactly once, a
mapping with a different target never appears — and the call leaves the
whole `EventLoop` state unchanged, holding the writer lock. -/
theorem get_request_buffers_spec (st : ELState) (target : String)
    (m m' : ThreadBufferMapping)
    (h : m.target_thread_name = target)
    (h' : m'.target_thread_name ≠ target) :
    (m ∈ (get_request_buffers_for_target_thread st target).1
      ↔ ∃ k, (k, m) ∈ st.thread_buffer_requests) ∧
    (get_request_buffers_for_target_thread st target).1.count m
      = st.thread_buffer_requests.countP (fun x => x.2 == m) ∧
    m' ∉ (get_request_buffers_for_target_thread st target).1 ∧
    (get_request_buffers_for_target_thread st target).2.1 = st ∧
    (get_request_buffers_for_target_thread st target).2.2
      = LockKind.writer := by
  refine ⟨?_, ?_, ?_, rfl, rfl⟩
  · simp only [get_request_buffers_for_target_thread, List.mem_map,
      List.mem_filter]
    constructor
    · rintro ⟨⟨k, v⟩, ⟨hmem, _⟩, hv⟩
      exact ⟨k, by simpa [← hv] using hmem⟩
    · rintro ⟨k, hk⟩
      exact ⟨(k, m), ⟨hk, by simp [h]⟩, rfl⟩
  · rw [List.count_eq_countP]
    simp only [get_request_buffers_for_target_thread]
    rw [List.countP_map, List.countP_filter]
    refine List.countP_congr ?_
    intro x _
    simp only [Function.comp, Bool.and_eq_true, beq_iff_eq]
    exact ⟨fun hh => hh.1, fun he => ⟨he, by rw [he]; exact h⟩⟩
  · intro hm
    simp only [get_request_buffers_for_target_thread, List.mem_map,
      List.mem_filter, beq_iff_eq] at hm
    obtain ⟨x, ⟨_, hp⟩, hv⟩ := hm
    exact h' (by rw [← hv]; exact hp)

/-- Claim C8 witness: a table with a single entry targeted at role
`ui`, queried for `ui`, with the foreign mapping targeted at `gui`. -/
theorem get_request_buffers_spec_witness :
    ((⟨1, "ui", 10⟩ : ThreadBufferMapping)
        ∈ (get_request_buffers_for_target_thread
            ⟨[("a/ui", ⟨1, "ui", 10⟩)], []⟩ "ui").1
      ↔ ∃ k, (k, (⟨1, "ui", 10⟩ : ThreadBufferMapping))
          ∈ (⟨[("a/ui", ⟨1, "ui", 10⟩)], []⟩ :
              ELState).thread_buffer_requests) ∧
    (get_request_buffers_for_target_thread
        ⟨[("a/ui", ⟨1, "ui", 10⟩)], []⟩ "ui").1.count ⟨1, "ui", 10⟩
      = (⟨[("a/ui", ⟨1, "ui", 10⟩)], []⟩ :
          ELState).thread_buffer_requests.countP
            (fun x => x.2 == (⟨1, "ui", 10⟩ : ThreadBufferMapping)) ∧
    (⟨2, "gui", 11⟩ : ThreadBufferMapping)
        ∉ (get_request_buffers_for_target_thread
            ⟨[("a/ui", ⟨1, "ui", 10⟩)], []⟩ "ui").1 ∧
    (get_request_buffers_for_target_thread
        ⟨[("a/ui", ⟨1, "ui", 10⟩)], []⟩ "ui").2.1
      = ⟨[("a/ui", ⟨1, "ui", 10⟩)], []⟩ ∧
    (get_request_buffers_for_target_thread
        ⟨[("a/ui", ⟨1, "ui", 10⟩)], []⟩ "ui").2.2 = LockKind.writer :=
  get_request_buffers_spec ⟨[("a/ui", ⟨1, "ui", 10⟩)], []⟩ "ui"
    ⟨1, "ui", 10⟩ ⟨2, "gui", 11⟩ rfl (by decide)

/-! ### Lemmas about `mapStore` and `preRegisterLoop` -/

/-- Storing under a key makes that key's lookup yield the new value. -/
theorem mapFind_mapStore_self (k : String) (v : ThreadBufferMapping)
    (t : List (String × ThreadBufferMapping)) :
    mapFind k (mapStore k v t) = some v := by
  induction t with
  | nil => simp [mapStore, mapFind]
  | cons a rest ih =>
      obtain ⟨ka, va⟩ := a
      by_cases hk : ka = k
      · simp [mapStore, mapFind, hk]
      · simp [mapStore, mapFind, hk, ih]

/-- Storing under a key leaves every other key's lookup unchanged. -/
theorem mapFind_mapStore_ne (k k' : String) (v : ThreadBufferMapping)
    (t : List (String × ThreadBufferMapping)) (h : k' ≠ k) :
    mapFind k' (mapStore k v t) = mapFind k' t := by
  induction t with
  | nil => simp [mapStore, mapFind, Ne.symm h]
  | cons a rest ih =>
      obtain ⟨ka, va⟩ := a
      by_cases hk : ka = k
      · simp [mapStore, mapFind, hk, Ne.symm h]
      · simp only [mapStore, if_neg hk, mapFind]
        rw [ih]

/-- A key of the stored table is the new key or a key of the old
table. -/
theorem mem_keys_mapStore (k x : String) (v : ThreadBufferMapping)
    (t : List (String × ThreadBufferMapping))
    (hx : x ∈ (mapStore k v t).map Prod.fst) :
    x = k ∨ x ∈ t.map Prod.fst := by
  induction t with
  | nil => simpa [mapStore] using hx
  | cons a rest ih =>
      obtain ⟨ka, va⟩ := a
      by_cases hk : ka = k
      · simp only [mapStore, if_pos hk, List.map_cons, List.mem_cons] at hx
        rcases hx with h1 | h1
        · exact Or.inl h1
        · exact Or.inr (by simp [h1])
      · simp only [mapStore, if_neg hk, List.map_cons, List.mem_cons] at hx
        rcases hx with h1 | h1
        · exact Or.inr (by simp [h1])
        · rcases ih h1 with h2 | h2
          · exact Or.inl h2
          · exact Or.inr (by simp [h2])

/-- `mapStore` keeps the keys of the table duplicate-free. -/
theorem nodup_keys_mapStore (k : String) (v : ThreadBufferMapping)
    (t : List (String × ThreadBufferMapping))
    (h : (t.map Prod.fst).Nodup) :
    ((mapStore k v t).map Prod.fst).Nodup := by
  induction t with
  | nil => simp [mapStore]
  | cons a rest ih =>
      obtain ⟨ka, va⟩ := a
      simp only [List.map_cons, List.nodup_cons] at h
      by_cases hk : ka = k
      · subst hk
        simpa [mapStore, List.nodup_cons] using h
      · simp only [mapStore, if_neg hk, List.map_cons, List.nodup_cons]
        refine ⟨?_, ih h.2⟩
        intro hmem
        rcases mem_keys_mapStore k ka v rest hmem with h1 | h1
        · exact hk h1
        · exact h.1 h1

/-- `preRegisterLoop` keeps the keys of the table duplicate-free: the
shared mapping table never holds two entries under the same key. -/
theorem nodup_keys_preRegisterLoop (self : Nat) (em : String) (n : Nat)
    (sup : List RequestBufferSupplier)
    (tbl : List (String × ThreadBufferMapping))
    (h : (tbl.map Prod.fst).Nodup) :
    ((preRegisterLoop self em n sup tbl).map Prod.fst).Nodup := by
  induction sup generalizing tbl with
  | nil => exact h
  | cons trs rest ih =>
      obtain ⟨nm, fac⟩ := trs
      cases fac with
      | none => exact ih tbl h
      | some f =>
          by_cases hem : em = nm
          · simpa [preRegisterLoop, hem] using ih tbl h
          · simp only [preRegisterLoop, if_neg hem]
            exact ih _ (nodup_keys_mapStore _ _ _ h)

/-- The value that the `pre_register` loop leaves under key `k`, taking
only the suppliers into account (`none` when no supplier writes `k`;
later suppliers override earlier ones, mirroring the write order). -/
def loopFind (self : Nat) (em : String) (n : Nat) (k : String) :
    List RequestBufferSupplier → Option ThreadBufferMapping
  | [] => none
  | trs :: rest =>
      match trs.factory with
      | none => loopFind self em n k rest
      | some f =>
          if em = trs.name then loopFind self em n k rest
          else
            (loopFind self em n k rest).or
              (if k = em ++ "/" ++ trs.name then
                some ⟨self, trs.name, f n⟩
              else none)

/-- Lookup after the `pre_register` loop: the loop's own last write
under `k` if there is one, otherwise the old table's value. -/
theorem mapFind_preRegisterLoop (self : Nat) (em : String) (n : Nat)
    (k : String) (sup : List RequestBufferSupplier)
    (tbl : List (String × ThreadBufferMapping)) :
    mapFind k (preRegisterLoop self em n sup tbl)
      = (loopFind self em n k sup).or (mapFind k tbl) := by
  induction sup generalizing tbl with
  | nil => simp [preRegisterLoop, loopFind]
  | cons trs rest ih =>
      obtain ⟨nm, fac⟩ := trs
      cases fac with
      | none => simpa [preRegisterLoop, loopFind] using ih tbl
      | some f =>
          by_cases hem : em = nm
          · simpa [preRegisterLoop, loopFind, hem] using ih tbl
          · simp only [preRegisterLoop, loopFind, if_neg hem]
            rw [ih]
            cases hr : loopFind self em n k rest with
            | some w => simp
            | none =>
                simp only [Option.none_or]
                by_cases hkey : k = em ++ "/" ++ nm
                · rw [hkey, mapFind_mapStore_self]
                  simp [hkey]
                · rw [mapFind_mapStore_ne _ _ _ _ hkey]
                  simp [hkey]

/-- Whether the loop writes key `k` depends only on the emitter name and
the suppliers, not on the thread id or the buffer size. -/
theorem loopFind_isSome_congr (self self2 : Nat) (em : String)
    (n n2 : Nat) (k : String) (sup : List RequestBufferSupplier) :
    (loopFind self em n k sup).isSome
      = (loopFind self2 em n2 k sup).isSome := by
  induction sup with
  | nil => rfl
  | cons trs rest ih =>
      obtain ⟨nm, fac⟩ := trs
      cases fac with
      | none => simpa [loopFind] using ih
      | some f =>
          by_cases hem : em = nm
          · simpa [loopFind, hem] using ih
          · simp only [loopFind, if_neg hem, Option.isSome_or]
            rw [ih]
            by_cases hkey : k = em ++ "/" ++ nm <;> simp [hkey]

/-- Claim C4: the shared mapping table never holds two entries under
the same composite key (its keys stay duplicate-free through
`pre_register`), and a second `pre_register` with the same emitter name
overwrites the previous mappings: every key lookup after both calls
equals the lookup after the latest call alone, so
`get_request_buffers_for_target_thread` reflects only the latest
registration — concretely, registering `workerA` twice against the C3
suppliers and then querying role `ui` returns exactly the one latest
mapping. -/
theorem pre_register_overwrites (st : ELState) (em : String)
    (self1 self2 n1 n2 : Nat) (k : String)
    (h : (st.thread_buffer_requests.map Prod.fst).Nodup) :
    ((pre_register self2 (pre_register self1 st em n1).1 em
        n2).1.thread_buffer_requests.map Prod.fst).Nodup ∧
    mapFind k (pre_register self2 (pre_register self1 st em n1).1 em
        n2).1.thread_buffer_requests
      = mapFind k (pre_register self2 st em n2).1.thread_buffer_requests ∧
    (get_request_buffers_for_target_thread
        (pre_register self2 (pre_register self1 stC3 "workerA" 64).1
          "workerA" 32).1 "ui").1
      = [⟨self2, "ui", 132⟩] := by
  refine ⟨?_, ?_, ?_⟩
  · exact nodup_keys_preRegisterLoop _ _ _ _ _
      (nodup_keys_preRegisterLoop _ _ _ _ _ h)
  · simp only [pre_register]
    rw [mapFind_preRegisterLoop, mapFind_preRegisterLoop,
      mapFind_preRegisterLoop]
    cases h2 : loopFind self2 em n2 k st.request_buffer_suppliers with
    | some w => simp
    | none =>
        have hiso := loopFind_isSome_congr self1 self2 em n1 n2 k
          st.request_buffer_suppliers
        rw [h2] at hiso
        have h1 : loopFind self1 em n1 k st.request_buffer_suppliers
            = none :=
          Option.not_isSome_iff_eq_none.mp (by simp [hiso])
        simp [h1]
  · simp [pre_register, preRegisterLoop, stC3, suppliersC3, mapStore, fUI,
      fWorkerA, get_request_buffers_for_target_thread]

/-- Claim C4 witness: the statement at the C3 suppliers with thread ids
`1` and `2`, buffer sizes `64` and `32`, and key `workerA/ui`. -/
theorem pre_register_overwrites_witness :
    ((pre_register 2 (pre_register 1 stC3 "workerA" 64).1 "workerA"
        32).1.thread_buffer_requests.map Prod.fst).Nodup ∧
    mapFind "workerA/ui"
        (pre_register 2 (pre_register 1 stC3 "workerA" 64).1 "workerA"
          32).1.thread_buffer_requests
      = mapFind "workerA/ui"
          (pre_register 2 stC3 "workerA" 32).1.thread_buffer_requests ∧
    (get_request_buffers_for_target_thread
        (pre_register 2 (pre_register 1 stC3 "workerA" 64).1
          "workerA" 32).1 "ui").1
      = [⟨2, "ui", 132⟩] :=
  pre_register_overwrites stC3 "workerA" 1 2 64 32 "workerA/ui"
    (by simp [stC3])

end EventLoopModel
